import Mathlib

/-!
# Verification of the SendGrid→Salesforce batching and reconciliation server

Shallow embedding of `src/server.js` (first variant of the file; the second
variant after the separator differs only in bounce aggregation and in the
person-level resolution policy).  JavaScript numbers are modelled as `Int`
(timestamps) and `Nat` (counters); `null`/missing values as `Option`;
JavaScript objects used as string-keyed dictionaries as association lists in
key-insertion order.  `new Date(event.timestamp * 1000)` is modelled by the
integer `event.timestamp * 1000` (milliseconds since epoch); JavaScript
`Date` comparison is numeric comparison of these values.
-/

/-- A raw inbound SendGrid event as delivered in the webhook payload
(`req.body` element).  Fields that may be absent are `Option`. -/
structure RawEvent where
  email : String
  event : String
  timestamp : Int
  url : Option String
  reason : Option String
  sg_message_id : Option String
  sg_event_id : Option String
  deriving Repr, DecidableEq

/-- A canonical event as stored in `eventBatch` by the webhook handler
(server.js lines 31–41). -/
structure CEvent where
  email : String
  eventType : String
  timestamp : Int
  url : Option String
  reason : Option String
  sg_message_id : Option String
  sg_event_id : Option String
  deriving Repr, DecidableEq

/-- JavaScript `x || null` on an optional string: `undefined`, `null` and the
empty string are falsy and give `null`. -/
def jsOrNull : Option String → Option String
  | none => none
  | some s => if s = "" then none else some s

/-- The normalization performed by the webhook handler for each event of the
payload (server.js lines 32–40): field renaming and `|| null` defaulting. -/
def normalizeEvent (e : RawEvent) : CEvent :=
  { email := e.email
    eventType := e.event
    timestamp := e.timestamp
    url := jsOrNull e.url
    reason := jsOrNull e.reason
    sg_message_id := e.sg_message_id
    sg_event_id := e.sg_event_id }

/-- `const BATCH_SIZE = 100` (server.js line 15). -/
def BATCH_SIZE : Nat := 100

/-- `const BATCH_TIMEOUT = 60000` (server.js line 16). -/
def BATCH_TIMEOUT : Nat := 60000

/-- The process-wide mutable accumulator state: `eventBatch` (line 14) and
whether `batchTimer` is non-null (line 17).  The timer's identity and
deadline are irrelevant to the claims; only its presence is modelled. -/
structure AccState where
  eventBatch : List CEvent
  batchTimer : Bool
  deriving Repr, DecidableEq

/-- The synchronous detach-and-reset part of `processBatch` (server.js lines
60–65): a no-op on an empty batch, otherwise hands the whole open batch to
the aggregation/reconciliation pipeline and resets `eventBatch` to `[]` and
`batchTimer` to `null`.  Returns the new state and the detached batch. -/
def processBatchStep (s : AccState) : AccState × Option (List CEvent) :=
  if s.eventBatch = [] then (s, none)
  else (⟨[], false⟩, some s.eventBatch)

/-- One webhook request with an array payload (server.js lines 31–49): append
all normalized events to the open batch, then — once, after all appends —
check the size threshold; on reaching it, cancel any pending timer and run
`processBatch` synchronously; otherwise start a timer if none is pending. -/
def handleWebhook (s : AccState) (events : List RawEvent) :
    AccState × Option (List CEvent) :=
  let appended := s.eventBatch ++ events.map normalizeEvent
  if appended.length ≥ BATCH_SIZE then
    -- clearTimeout(batchTimer); processBatch()
    processBatchStep ⟨appended, false⟩
  else if s.batchTimer = false then (⟨appended, true⟩, none)
  else (⟨appended, s.batchTimer⟩, none)

/-- Run a sequence of webhook requests, collecting every batch flushed by a
threshold-triggered `processBatch` along the way, in order. -/
def runRequests : AccState → List (List RawEvent) →
    AccState × List (List CEvent)
  | s, [] => (s, [])
  | s, evs :: rest =>
    ((runRequests (handleWebhook s evs).1 rest).1,
      (handleWebhook s evs).2.toList ++ (runRequests (handleWebhook s evs).1 rest).2)

/-- Per-message aggregate built by `processBatch`'s grouping loop
(server.js lines 81–110): ordered open timestamps, ordered
(timestamp, url) clicks, and the most-recent bounce/drop (timestamp,
reason). -/
structure MsgData where
  messageId : String
  email : String
  opens : List Int
  clicks : List (Int × Option String)
  bounce : Option (Int × Option String)
  deriving Repr, DecidableEq

/-- Per-email aggregate built by the same loop (server.js lines 114–144). -/
structure EmailData where
  email : String
  totalOpens : Nat
  totalClicks : Nat
  lastOpenDate : Option Int
  lastClickDate : Option Int
  lastBounceDate : Option Int
  bounceReason : Option String
  deriving Repr, DecidableEq

/-- The fresh per-message aggregate created on first sight of a message id
(server.js lines 82–88). -/
def initMsgData (mid email : String) : MsgData :=
  ⟨mid, email, [], [], none⟩

/-- The fresh per-email aggregate created on first sight of an email
(server.js lines 115–123). -/
def initEmailData (email : String) : EmailData :=
  ⟨email, 0, 0, none, none, none, none⟩

/-- Folding one event into a per-message aggregate (server.js lines 93–110).
Bounce and dropped events are interchangeable; the bounce record is replaced
only on a strictly greater timestamp. -/
def updateMsgData (m : MsgData) (e : CEvent) : MsgData :=
  let ts := e.timestamp * 1000
  if e.eventType = "open" then
    { m with opens := m.opens ++ [ts] }
  else if e.eventType = "click" then
    { m with clicks := m.clicks ++ [(ts, e.url)] }
  else if e.eventType = "bounce" ∨ e.eventType = "dropped" then
    match m.bounce with
    | none => { m with bounce := some (ts, e.reason) }
    | some b => if ts > b.1 then { m with bounce := some (ts, e.reason) } else m
  else m

/-- Folding one event into a per-email aggregate (server.js lines 126–144).
All "last" fields are replaced only when `null` or on a strictly greater
timestamp (JavaScript `Date` objects are always truthy, so `!lastOpenDate`
is exactly `isNone`). -/
def updateEmailData (d : EmailData) (e : CEvent) : EmailData :=
  let ts := e.timestamp * 1000
  if e.eventType = "open" then
    let d := { d with totalOpens := d.totalOpens + 1 }
    if d.lastOpenDate.isNone ∨ d.lastOpenDate.getD 0 < ts then
      { d with lastOpenDate := some ts }
    else d
  else if e.eventType = "click" then
    let d := { d with totalClicks := d.totalClicks + 1 }
    if d.lastClickDate.isNone ∨ d.lastClickDate.getD 0 < ts then
      { d with lastClickDate := some ts }
    else d
  else if e.eventType = "bounce" ∨ e.eventType = "dropped" then
    if d.lastBounceDate.isNone ∨ d.lastBounceDate.getD 0 < ts then
      { d with lastBounceDate := some ts, bounceReason := e.reason }
    else d
  else d

/-- JavaScript object upsert `if (!map[k]) map[k] = init; f(map[k])` on an
association list in key-insertion order: update the existing entry in place,
or append a fresh one initialised with `init` at the end. -/
def upsert {α : Type} (k : String) (init : α) (f : α → α) :
    List (String × α) → List (String × α)
  | [] => [(k, f init)]
  | (k', v) :: rest =>
    if k' = k then (k', f v) :: rest else (k', v) :: upsert k init f rest

/-- JavaScript object lookup `map[k]` on an association list. -/
def lookupAssoc {α : Type} (k : String) : List (String × α) → Option α
  | [] => none
  | (k', v) :: rest => if k' = k then some v else lookupAssoc k rest

/-- JavaScript truthiness of an optional string (`if (event.sg_message_id)`):
`undefined`, `null` and `""` are falsy. -/
def jsTruthyStr : Option String → Bool
  | none => false
  | some s => s ≠ ""

/-- The two batch-scoped views built by `processBatch` (server.js lines
75–76): `eventsByMessageId` and `eventsByEmail`. -/
structure AggResult where
  eventsByMessageId : List (String × MsgData)
  eventsByEmail : List (String × EmailData)
  deriving Repr, DecidableEq

/-- One iteration of `batch.forEach` (server.js lines 78–145): events with a
truthy `sg_message_id` update the per-message view; every event updates the
per-email view. -/
def aggStep (r : AggResult) (e : CEvent) : AggResult :=
  let r1 :=
    match e.sg_message_id with
    | some mid =>
      if mid ≠ "" then
        let byMsg :=
          upsert mid (initMsgData mid e.email) (fun m => updateMsgData m e) r.eventsByMessageId
        { r with eventsByMessageId := byMsg }
      else r
    | none => r
  let byEmail :=
    upsert e.email (initEmailData e.email) (fun d => updateEmailData d e) r1.eventsByEmail
  { r1 with eventsByEmail := byEmail }

/-- The whole grouping loop of `processBatch` over a detached batch. -/
def aggregateBatch (batch : List CEvent) : AggResult :=
  batch.foldl aggStep ⟨[], []⟩

/-- `list.sort((a, b) => a.timestamp - b.timestamp)[0]` on a non-empty list of
timestamps (server.js line 174): ascending sort then first element, i.e. the
minimum timestamp (ties carry no further data here). -/
def minTimestamp : List Int → Option Int
  | [] => none
  | t :: ts => some (ts.foldl min t)

/-- `list.sort((a, b) => b.timestamp - a.timestamp)[0]` on a non-empty list of
timestamps (server.js line 185): descending sort then first element, i.e. the
maximum timestamp. -/
def maxTimestamp : List Int → Option Int
  | [] => none
  | t :: ts => some (ts.foldl max t)

/-- `[...new Set(l)]`: deduplication keeping the first occurrence of each
element, preserving order. -/
def dedupAux : List String → List String → List String
  | [], _ => []
  | a :: as, seen =>
    if a ∈ seen then dedupAux as seen else a :: dedupAux as (a :: seen)

/-- `[...new Set(l)]` with an empty initial seen-set. -/
def dedupFirst (l : List String) : List String := dedupAux l []

/-- `s.split('; ')`: cut the character list at every occurrence of the
two-character separator `"; "`. -/
def splitSemiSpaceAux : List Char → List Char → List (List Char)
  | [], acc => [acc.reverse]
  | ';' :: ' ' :: rest, acc => acc.reverse :: splitSemiSpaceAux rest []
  | c :: rest, acc => splitSemiSpaceAux rest (c :: acc)

/-- `s.split('; ')` on a string (server.js line 191). -/
def splitSemiSpace (s : String) : List String :=
  (splitSemiSpaceAux s.toList []).map List.asString

/-- `s.substring(0, 255)` (server.js line 193); the strings involved are
ASCII, so UTF-16 code units coincide with characters. -/
def substring255 (s : String) : String := (s.toList.take 255).asString

/-- A fetched `EmailMessage` record (server.js query lines 152–158).  Number
and date fields may be null; `Open_Count__c || 0` makes a null (or zero)
count behave as `0`, which `Option.getD 0` reproduces. -/
structure EmailMsgRecord where
  id : String
  messageIdentifier : String
  openCount : Option Nat
  clickCount : Option Nat
  firstOpenedDate : Option Int
  lastClickedDate : Option Int
  linksClicked : Option String
  bounceDate : Option Int
  bounceReason : Option String
  deriving Repr, DecidableEq

/-- The update record pushed to `emailMessageUpdates` (server.js lines
165–202).  A `none` field is absent from the update and leaves the remote
value untouched; `bounceReason` is doubly optional because the written
reason may itself be null. -/
structure EmailMsgUpdate where
  id : String
  openCount : Option Nat := none
  clickCount : Option Nat := none
  firstOpenedDate : Option Int := none
  lastClickedDate : Option Int := none
  linksClicked : Option String := none
  bounceDate : Option Int := none
  bounceReason : Option (Option String) := none
  deriving Repr, DecidableEq

/-- The clicked-URL merge of server.js lines 188–193: collect the batch's
truthy click URLs, deduplicate keeping first occurrences, split the stored
`Links_Clicked__c` on the `'; '` separator (a falsy stored value gives no
existing URLs), deduplicate the concatenation, re-join with `'; '` and cut
to 255 characters. -/
def mergedLinks (emailMsg : EmailMsgRecord) (eventData : MsgData) : String :=
  let urls := ((eventData.clicks.map Prod.snd).filterMap id).filter (fun s => s ≠ "")
  let uniqueUrls := dedupFirst urls
  let existingUrls :=
    match emailMsg.linksClicked with
    | some s => if s ≠ "" then splitSemiSpace s else []
    | none => []
  let allUrls := dedupFirst (existingUrls ++ uniqueUrls)
  substring255 (String.intercalate "; " allUrls)

/-- The body of `emailMessages.records.forEach` for one record and its
matching per-message aggregate (server.js lines 165–202). -/
def buildEmailMsgUpdate (emailMsg : EmailMsgRecord) (eventData : MsgData) :
    EmailMsgUpdate :=
  let u0 : EmailMsgUpdate := { id := emailMsg.id }
  -- Calculate open count (lines 168–177)
  let u1 :=
    if eventData.opens.length > 0 then
      let currentOpenCount := emailMsg.openCount.getD 0
      let u := { u0 with openCount := some (currentOpenCount + eventData.opens.length) }
      -- Set first opened date if not already set (lines 173–176)
      if emailMsg.firstOpenedDate.isNone then
        { u with firstOpenedDate := minTimestamp eventData.opens }
      else u
    else u0
  -- Calculate click count (lines 180–193)
  let u2 :=
    if eventData.clicks.length > 0 then
      let currentClickCount := emailMsg.clickCount.getD 0
      let u := { u1 with clickCount := some (currentClickCount + eventData.clicks.length) }
      -- Update last clicked date (lines 184–186): unconditional overwrite
      let u := { u with lastClickedDate := maxTimestamp (eventData.clicks.map Prod.fst) }
      -- Collect unique URLs clicked (lines 188–193)
      { u with linksClicked := some (mergedLinks emailMsg eventData) }
    else u1
  -- Track bounces on EmailMessage (lines 197–200)
  match eventData.bounce with
  | some b => { u2 with bounceDate := some b.1, bounceReason := some b.2 }
  | none => u2

/-- The whole `emailMessages.records.forEach` loop (server.js lines
162–204): one update per fetched record whose message identifier has an
aggregate. -/
def processEmailMessages (records : List EmailMsgRecord)
    (byMsg : List (String × MsgData)) : List EmailMsgUpdate :=
  records.filterMap fun r =>
    (lookupAssoc r.messageIdentifier byMsg).map fun d => buildEmailMsgUpdate r d

/-- A fetched unconverted `Lead` record (server.js query lines 216–220). -/
structure LeadRecord where
  id : String
  email : String
  emailOpenCount : Option Nat
  emailClickCount : Option Nat
  lastEmailOpenedDate : Option Int
  lastEmailClickedDate : Option Int
  deriving Repr, DecidableEq

/-- The update record pushed to `leadUpdates` (server.js lines 228–258); a
`none` field is absent from the update. -/
structure LeadUpdate where
  id : String
  emailOpenCount : Option Nat := none
  emailClickCount : Option Nat := none
  lastEmailOpenedDate : Option Int := none
  lastEmailClickedDate : Option Int := none
  deriving Repr, DecidableEq

/-- The body of `leads.records.forEach` for one Lead and its matching
per-email aggregate (server.js lines 225–259).  The aggregate's
`lastOpenDate`/`lastClickDate` are necessarily set whenever the respective
total is positive; a null date would compare as `0` in JavaScript, which
`Option.getD 0` reproduces. -/
def buildLeadUpdate (lead : LeadRecord) (eventData : EmailData) : LeadUpdate :=
  let u0 : LeadUpdate := { id := lead.id }
  let u1 :=
    if eventData.totalOpens > 0 then
      let currentCount := lead.emailOpenCount.getD 0
      let newCount := currentCount + eventData.totalOpens
      let u := { u0 with emailOpenCount := some newCount }
      if lead.lastEmailOpenedDate.isNone ∨
          eventData.lastOpenDate.getD 0 > lead.lastEmailOpenedDate.getD 0 then
        { u with lastEmailOpenedDate := eventData.lastOpenDate }
      else u
    else u0
  if eventData.totalClicks > 0 then
    let currentCount := lead.emailClickCount.getD 0
    let newCount := currentCount + eventData.totalClicks
    let u := { u1 with emailClickCount := some newCount }
    if lead.lastEmailClickedDate.isNone ∨
        eventData.lastClickDate.getD 0 > lead.lastEmailClickedDate.getD 0 then
      { u with lastEmailClickedDate := eventData.lastClickDate }
    else u
  else u1

/-- The whole `leads.records.forEach` loop (server.js lines 225–260): the
update — `Id` alone when nothing contributed — is pushed unconditionally for
every fetched Lead whose email has an aggregate. -/
def processLeads (leads : List LeadRecord)
    (byEmail : List (String × EmailData)) : List LeadUpdate :=
  leads.filterMap fun lead =>
    (lookupAssoc lead.email byEmail).map fun d => buildLeadUpdate lead d

/-- The value of one field after a Salesforce record update: a field absent
from the update record keeps its stored value. -/
def appliedField {α : Type} (stored upd : Option α) : Option α :=
  match upd with
  | some v => some v
  | none => stored

/-- Concrete sample event: an open for `a@x.com` at epoch second 1000. -/
def rawOpenA : RawEvent := ⟨"a@x.com", "open", 1000, none, none, none, none⟩

/-- Concrete sample event: a click on `/p` for `a@x.com` at epoch second
1100. -/
def rawClickA : RawEvent := ⟨"a@x.com", "click", 1100, some "/p", none, none, none⟩

/-- Concrete `EmailMessage` record with open count 5 and click count 2. -/
def recC2 : EmailMsgRecord :=
  ⟨"idM1", "m1", some 5, some 2, none, none, none, none, none⟩

/-- Concrete per-message aggregate with 3 opens and 1 click. -/
def dataC2 : MsgData :=
  ⟨"m1", "a@x.com", [1000000, 2000000, 3000000], [(1500000, some "/a")], none⟩

/-- Concrete unconverted Lead with open count 5 and click count 2. -/
def leadC2 : LeadRecord := ⟨"idL1", "a@x.com", some 5, some 2, none, none⟩

/-- Concrete per-email aggregate with 3 opens and 1 click. -/
def aggC2 : EmailData :=
  ⟨"a@x.com", 3, 1, some 3000000, some 1500000, none, none⟩

/-- Concrete `EmailMessage` record whose stored last-clicked date (epoch ms
2000000) is newer than the batch's only click. -/
def recC4 : EmailMsgRecord :=
  ⟨"idM4", "m4", none, none, none, some 2000000, none, none, none⟩

/-- Concrete per-message aggregate whose only click (epoch ms 1000000) is
older than `recC4`'s stored last-clicked date. -/
def dataC4 : MsgData := ⟨"m4", "a@x.com", [], [(1000000, some "/x")], none⟩

/-- Concrete `EmailMessage` record with stored clicked-URL value `"/a;/c"` —
note the separator lacks the space of the code's `'; '` serialization. -/
def recC5 : EmailMsgRecord :=
  ⟨"idM5", "m5", none, none, none, none, some "/a;/c", none, none⟩

/-- Concrete `EmailMessage` record with stored clicked-URL value `"/a; /c"`,
the code's own `'; '` serialization of {"/a", "/c"}. -/
def recC5b : EmailMsgRecord :=
  ⟨"idM5b", "m5", none, none, none, none, some "/a; /c", none, none⟩

/-- Concrete per-message aggregate with clicks on `/a` then `/b`. -/
def dataC5 : MsgData :=
  ⟨"m5", "a@x.com", [], [(1000000, some "/a"), (1100000, some "/b")], none⟩

/-- Concrete `EmailMessage` record with no first-opened date. -/
def recC8 : EmailMsgRecord :=
  ⟨"idM8", "m8", none, none, none, none, none, none, none⟩

/-- Concrete `EmailMessage` record whose first-opened date is already set. -/
def recC8b : EmailMsgRecord :=
  ⟨"idM8b", "m8", none, none, some 500, none, none, none, none⟩

/-- Concrete per-message aggregate whose opens are out of order; the
earliest is epoch ms 1000000. -/
def dataC8 : MsgData :=
  ⟨"m8", "a@x.com", [3000000, 1000000, 2000000], [], none⟩

/-- Concrete per-email aggregate whose three "last" fields all sit at epoch
ms 1000000 with bounce reason "r1". -/
def dC6 : EmailData :=
  ⟨"a@x.com", 1, 1, some 1000000, some 1000000, some 1000000, some "r1"⟩

/-- Concrete per-message aggregate whose bounce sits at epoch ms 1000000
with reason "r1". -/
def mC6 : MsgData := ⟨"m6", "a@x.com", [], [], some (1000000, some "r1")⟩

/-- Concrete open event at epoch second 1000 (ms 1000000). -/
def eoC6 : CEvent := ⟨"a@x.com", "open", 1000, none, none, none, none⟩

/-- Concrete click event at epoch second 1000 (ms 1000000). -/
def ecC6 : CEvent := ⟨"a@x.com", "click", 1000, some "/u", none, none, none⟩

/-- Concrete bounce event at epoch second 1000 (ms 1000000) with a
different reason "r2". -/
def ebC6 : CEvent := ⟨"a@x.com", "bounce", 1000, none, some "r2", none, none⟩

/-- Concrete event of an unrecognized type: it creates a per-email entry
but contributes no opens, clicks or bounces. -/
def evDelivered : CEvent := ⟨"b@x.com", "delivered", 1000, none, none, none, none⟩

/-- Concrete unconverted Lead matching `evDelivered`'s email. -/
def leadC9 : LeadRecord := ⟨"idL9", "b@x.com", none, none, none, none⟩

/-! ## Batch accumulator lemmas -/

/-- A webhook request whose cumulative size reaches `BATCH_SIZE` flushes the
whole appended batch and clears the timer. -/
theorem handleWebhook_threshold (s : AccState) (events : List RawEvent)
    (h : s.eventBatch.length + events.length ≥ BATCH_SIZE) :
    handleWebhook s events =
      (⟨[], false⟩, some (s.eventBatch ++ events.map normalizeEvent)) := by
  have hlen : (s.eventBatch ++ events.map normalizeEvent).length ≥ BATCH_SIZE := by
    simpa using h
  have hne : s.eventBatch ++ events.map normalizeEvent ≠ [] := by
    intro he
    rw [he] at hlen
    simp [BATCH_SIZE] at hlen
  unfold handleWebhook processBatchStep
  simp [hlen, hne]
  intro hc
  omega

/-- A webhook request that does not flush has appended exactly its payload's
normalized events to the open batch, in order. -/
theorem handleWebhook_none_batch (s : AccState) (events : List RawEvent)
    (h : (handleWebhook s events).2 = none) :
    (handleWebhook s events).1.eventBatch =
      s.eventBatch ++ events.map normalizeEvent := by
  by_cases hlen : (s.eventBatch ++ events.map normalizeEvent).length ≥ BATCH_SIZE
  · have := handleWebhook_threshold s events (by simpa using hlen)
    rw [this] at h
    simp at h
  · unfold handleWebhook
    simp only [if_neg hlen]
    by_cases ht : s.batchTimer = false <;> simp [ht]

/-- If no request of a run flushes, the final open batch is the initial one
followed by all normalized events of the run, in order. -/
theorem runRequests_no_flush_batch (rss : List (List RawEvent)) :
    ∀ s : AccState, (runRequests s rss).2 = [] →
      (runRequests s rss).1.eventBatch =
        s.eventBatch ++ (rss.flatten).map normalizeEvent := by
  induction rss with
  | nil => intro s _; simp [runRequests]
  | cons evs rest ih =>
    intro s h
    simp only [runRequests, List.append_eq_nil] at h ⊢
    cases hw : (handleWebhook s evs).2 with
    | some fl => rw [hw] at h; simp at h
    | none =>
      rw [ih _ h.2, handleWebhook_none_batch s evs hw]
      simp

/-- **C1.**  For every sequence of events appended to the open batch between
two flushes (a run of webhook requests none of which itself flushes, started
from the just-flushed empty open batch), the batch handed to the aggregator
by `processBatch` contains exactly those events, in insertion order, exactly
once, and the flush resets the open batch to empty (and the timer to null). -/
theorem processBatch_flushes_appended_events (t : Bool)
    (rss : List (List RawEvent))
    (hnf : (runRequests ⟨[], t⟩ rss).2 = [])
    (hne : (rss.flatten).map normalizeEvent ≠ []) :
    (runRequests ⟨[], t⟩ rss).1.eventBatch = (rss.flatten).map normalizeEvent ∧
    processBatchStep (runRequests ⟨[], t⟩ rss).1 =
      (⟨[], false⟩, some ((rss.flatten).map normalizeEvent)) := by
  have hb := runRequests_no_flush_batch rss ⟨[], t⟩ hnf
  simp only [List.nil_append] at hb
  refine ⟨hb, ?_⟩
  unfold processBatchStep
  rw [hb, if_neg hne]

/-- Witness for C1: two single-event requests accumulate both events; the
flush hands exactly both, in order, and empties the batch. -/
theorem processBatch_flushes_appended_events_witness :
    (runRequests ⟨[], false⟩ [[rawOpenA], [rawClickA]]).2 = [] ∧
    ([[rawOpenA], [rawClickA]].flatten).map normalizeEvent ≠ [] ∧
    ((runRequests ⟨[], false⟩ [[rawOpenA], [rawClickA]]).1.eventBatch =
        ([[rawOpenA], [rawClickA]].flatten).map normalizeEvent ∧
      processBatchStep (runRequests ⟨[], false⟩ [[rawOpenA], [rawClickA]]).1 =
        (⟨[], false⟩, some (([[rawOpenA], [rawClickA]].flatten).map normalizeEvent))) :=
  ⟨by decide, by decide,
    processBatch_flushes_appended_events false [[rawOpenA], [rawClickA]]
      (by decide) (by decide)⟩

/-- **C3.**  For every webhook request whose appends make the open batch's
size reach `BATCH_SIZE` (100), a flush is triggered synchronously within
that request and any pending timeout timer is cancelled (the resulting
timer state is null regardless of the previous one), even if no timeout has
elapsed: the whole accumulated batch is handed over and the state is
reset. -/
theorem size_threshold_triggers_flush (s : AccState) (events : List RawEvent)
    (h : s.eventBatch.length + events.length ≥ BATCH_SIZE) :
    handleWebhook s events =
      (⟨[], false⟩, some (s.eventBatch ++ events.map normalizeEvent)) :=
  handleWebhook_threshold s events h

/-- Witness for C3: 100 events arriving at an empty batch with a pending
timer flush immediately and cancel the timer. -/
theorem size_threshold_triggers_flush_witness :
    ((⟨[], true⟩ : AccState).eventBatch.length +
        (List.replicate 100 rawOpenA).length ≥ BATCH_SIZE) ∧
    handleWebhook ⟨[], true⟩ (List.replicate 100 rawOpenA) =
      (⟨[], false⟩, some ((⟨[], true⟩ : AccState).eventBatch ++
        (List.replicate 100 rawOpenA).map normalizeEvent)) :=
  ⟨by simp [BATCH_SIZE],
    size_threshold_triggers_flush ⟨[], true⟩ (List.replicate 100 rawOpenA)
      (by simp [BATCH_SIZE])⟩

/-- **C10.**  The size-threshold check runs once per ingress request, after
all events of the request's payload have been appended; a single request
carrying more than `BATCH_SIZE` events, arriving at a just-flushed empty
open batch, produces one flushed batch holding the whole payload, whose
size strictly exceeds `BATCH_SIZE` — a flushed batch's size is not bounded
by `BATCH_SIZE`. -/
theorem single_request_exceeds_threshold (t : Bool) (events : List RawEvent)
    (h : events.length > BATCH_SIZE) :
    (handleWebhook ⟨[], t⟩ events).2 = some (events.map normalizeEvent) ∧
    (events.map normalizeEvent).length > BATCH_SIZE := by
  have heq := handleWebhook_threshold ⟨[], t⟩ events (by simp; omega)
  constructor
  · rw [heq]; simp
  · simpa using h

/-- Witness for C10: one request of 101 events flushes a 101-event batch. -/
theorem single_request_exceeds_threshold_witness :
    ((List.replicate 101 rawOpenA).length > BATCH_SIZE) ∧
    ((handleWebhook ⟨[], false⟩ (List.replicate 101 rawOpenA)).2 =
        some ((List.replicate 101 rawOpenA).map normalizeEvent) ∧
      ((List.replicate 101 rawOpenA).map normalizeEvent).length > BATCH_SIZE) :=
  ⟨by simp [BATCH_SIZE],
    single_request_exceeds_threshold false (List.replicate 101 rawOpenA)
      (by simp [BATCH_SIZE])⟩

/-! ## Reconciliation lemmas -/

/-- `foldl min` is a lower bound of the seed and the list. -/
theorem foldl_min_le (ts : List Int) :
    ∀ t : Int, ts.foldl min t ≤ t ∧ ∀ x ∈ ts, ts.foldl min t ≤ x := by
  induction ts with
  | nil => intro t; exact ⟨le_refl t, by simp⟩
  | cons a as ih =>
    intro t
    obtain ⟨h1, h2⟩ := ih (min t a)
    simp only [List.foldl_cons]
    refine ⟨le_trans h1 (min_le_left t a), ?_⟩
    intro x hx
    rcases List.mem_cons.mp hx with rfl | hx
    · exact le_trans h1 (min_le_right t x)
    · exact h2 x hx

/-- `foldl min` is attained at the seed or in the list. -/
theorem foldl_min_mem (ts : List Int) :
    ∀ t : Int, ts.foldl min t = t ∨ ts.foldl min t ∈ ts := by
  induction ts with
  | nil => intro t; exact Or.inl rfl
  | cons a as ih =>
    intro t
    simp only [List.foldl_cons]
    rcases ih (min t a) with h | h
    · rcases min_choice t a with hm | hm
      · exact Or.inl (h.trans hm)
      · exact Or.inr (by rw [h, hm]; exact List.mem_cons_self a as)
    · exact Or.inr (List.mem_cons_of_mem a h)

/-- `foldl max` is an upper bound of the seed and the list. -/
theorem foldl_max_le (ts : List Int) :
    ∀ t : Int, t ≤ ts.foldl max t ∧ ∀ x ∈ ts, x ≤ ts.foldl max t := by
  induction ts with
  | nil => intro t; exact ⟨le_refl t, by simp⟩
  | cons a as ih =>
    intro t
    obtain ⟨h1, h2⟩ := ih (max t a)
    simp only [List.foldl_cons]
    refine ⟨le_trans (le_max_left t a) h1, ?_⟩
    intro x hx
    rcases List.mem_cons.mp hx with rfl | hx
    · exact le_trans (le_max_right t x) h1
    · exact h2 x hx

/-- `foldl max` is attained at the seed or in the list. -/
theorem foldl_max_mem (ts : List Int) :
    ∀ t : Int, ts.foldl max t = t ∨ ts.foldl max t ∈ ts := by
  induction ts with
  | nil => intro t; exact Or.inl rfl
  | cons a as ih =>
    intro t
    simp only [List.foldl_cons]
    rcases ih (max t a) with h | h
    · rcases max_choice t a with hm | hm
      · exact Or.inl (h.trans hm)
      · exact Or.inr (by rw [h, hm]; exact List.mem_cons_self a as)
    · exact Or.inr (List.mem_cons_of_mem a h)

/-- Field characterization: the open counter written by the message-level
reconciliation. -/
theorem buildEmailMsgUpdate_openCount (rec : EmailMsgRecord) (data : MsgData) :
    (buildEmailMsgUpdate rec data).openCount =
      if 0 < data.opens.length then
        some (rec.openCount.getD 0 + data.opens.length)
      else none := by
  cases hb : data.bounce <;>
    simp only [buildEmailMsgUpdate, hb] <;> split_ifs <;> simp_all

/-- Field characterization: the click counter written by the message-level
reconciliation. -/
theorem buildEmailMsgUpdate_clickCount (rec : EmailMsgRecord) (data : MsgData) :
    (buildEmailMsgUpdate rec data).clickCount =
      if 0 < data.clicks.length then
        some (rec.clickCount.getD 0 + data.clicks.length)
      else none := by
  cases hb : data.bounce <;>
    simp only [buildEmailMsgUpdate, hb] <;> split_ifs <;> simp_all

/-- Field characterization: the first-opened date written by the
message-level reconciliation. -/
theorem buildEmailMsgUpdate_firstOpenedDate (rec : EmailMsgRecord) (data : MsgData) :
    (buildEmailMsgUpdate rec data).firstOpenedDate =
      if 0 < data.opens.length ∧ rec.firstOpenedDate = none then
        minTimestamp data.opens
      else none := by
  cases hb : data.bounce <;>
    simp only [buildEmailMsgUpdate, hb] <;> split_ifs <;>
      simp_all [Option.isNone_iff_eq_none]

/-- Field characterization: the last-clicked date written by the
message-level reconciliation is unconditionally the batch maximum. -/
theorem buildEmailMsgUpdate_lastClickedDate (rec : EmailMsgRecord) (data : MsgData) :
    (buildEmailMsgUpdate rec data).lastClickedDate =
      if 0 < data.clicks.length then
        maxTimestamp (data.clicks.map Prod.fst)
      else none := by
  cases hb : data.bounce <;>
    simp only [buildEmailMsgUpdate, hb] <;> split_ifs <;> simp_all

/-- Field characterization: the clicked-URL list written by the
message-level reconciliation. -/
theorem buildEmailMsgUpdate_linksClicked (rec : EmailMsgRecord) (data : MsgData) :
    (buildEmailMsgUpdate rec data).linksClicked =
      if 0 < data.clicks.length then some (mergedLinks rec data) else none := by
  cases hb : data.bounce <;>
    simp only [buildEmailMsgUpdate, hb] <;> split_ifs <;> simp_all

/-- Field characterization: the open counter written by the Lead
reconciliation. -/
theorem buildLeadUpdate_emailOpenCount (lead : LeadRecord) (agg : EmailData) :
    (buildLeadUpdate lead agg).emailOpenCount =
      if 0 < agg.totalOpens then
        some (lead.emailOpenCount.getD 0 + agg.totalOpens)
      else none := by
  simp only [buildLeadUpdate]
  split_ifs <;> simp_all

/-- Field characterization: the click counter written by the Lead
reconciliation. -/
theorem buildLeadUpdate_emailClickCount (lead : LeadRecord) (agg : EmailData) :
    (buildLeadUpdate lead agg).emailClickCount =
      if 0 < agg.totalClicks then
        some (lead.emailClickCount.getD 0 + agg.totalClicks)
      else none := by
  simp only [buildLeadUpdate]
  split_ifs <;> simp_all

/-- Truncation `substring(0, 255)` yields at most 255 characters. -/
theorem substring255_length (s : String) : (substring255 s).length ≤ 255 := by
  show (s.toList.take 255).length ≤ 255
  simp

/-- The merged clicked-URL serialization is at most 255 characters long. -/
theorem mergedLinks_length (rec : EmailMsgRecord) (data : MsgData) :
    (mergedLinks rec data).length ≤ 255 := by
  unfold mergedLinks
  exact substring255_length _

/-- **C2.**  For every remote record with an existing open (or click)
counter and a batch aggregate contributing n > 0 opens (or clicks),
reconciliation writes back exactly the existing counter (a missing one
treated as 0) plus n — in the message-level flow and in the Lead flow alike
— and the written counter is never less than the existing one. -/
theorem reconciliation_adds_counts_monotonic
    (rec : EmailMsgRecord) (data : MsgData) (lead : LeadRecord) (agg : EmailData)
    (hmo : 0 < data.opens.length) (hmc : 0 < data.clicks.length)
    (hlo : 0 < agg.totalOpens) (hlc : 0 < agg.totalClicks) :
    ((buildEmailMsgUpdate rec data).openCount =
        some (rec.openCount.getD 0 + data.opens.length) ∧
      rec.openCount.getD 0 ≤ rec.openCount.getD 0 + data.opens.length) ∧
    ((buildEmailMsgUpdate rec data).clickCount =
        some (rec.clickCount.getD 0 + data.clicks.length) ∧
      rec.clickCount.getD 0 ≤ rec.clickCount.getD 0 + data.clicks.length) ∧
    ((buildLeadUpdate lead agg).emailOpenCount =
        some (lead.emailOpenCount.getD 0 + agg.totalOpens) ∧
      lead.emailOpenCount.getD 0 ≤ lead.emailOpenCount.getD 0 + agg.totalOpens) ∧
    ((buildLeadUpdate lead agg).emailClickCount =
        some (lead.emailClickCount.getD 0 + agg.totalClicks) ∧
      lead.emailClickCount.getD 0 ≤ lead.emailClickCount.getD 0 + agg.totalClicks) := by
  refine ⟨⟨?_, Nat.le_add_right _ _⟩, ⟨?_, Nat.le_add_right _ _⟩,
    ⟨?_, Nat.le_add_right _ _⟩, ⟨?_, Nat.le_add_right _ _⟩⟩
  · rw [buildEmailMsgUpdate_openCount, if_pos hmo]
  · rw [buildEmailMsgUpdate_clickCount, if_pos hmc]
  · rw [buildLeadUpdate_emailOpenCount, if_pos hlo]
  · rw [buildLeadUpdate_emailClickCount, if_pos hlc]

/-- Witness for C2: remote open count 5 and 3 batch opens give 8 (and click
count 2 plus 1 click gives 3), in both flows. -/
theorem reconciliation_adds_counts_monotonic_witness :
    (0 < dataC2.opens.length) ∧ (0 < dataC2.clicks.length) ∧
    (0 < aggC2.totalOpens) ∧ (0 < aggC2.totalClicks) ∧
    (((buildEmailMsgUpdate recC2 dataC2).openCount =
        some (recC2.openCount.getD 0 + dataC2.opens.length) ∧
      recC2.openCount.getD 0 ≤ recC2.openCount.getD 0 + dataC2.opens.length) ∧
    ((buildEmailMsgUpdate recC2 dataC2).clickCount =
        some (recC2.clickCount.getD 0 + dataC2.clicks.length) ∧
      recC2.clickCount.getD 0 ≤ recC2.clickCount.getD 0 + dataC2.clicks.length) ∧
    ((buildLeadUpdate leadC2 aggC2).emailOpenCount =
        some (leadC2.emailOpenCount.getD 0 + aggC2.totalOpens) ∧
      leadC2.emailOpenCount.getD 0 ≤ leadC2.emailOpenCount.getD 0 + aggC2.totalOpens) ∧
    ((buildLeadUpdate leadC2 aggC2).emailClickCount =
        some (leadC2.emailClickCount.getD 0 + aggC2.totalClicks) ∧
      leadC2.emailClickCount.getD 0 ≤ leadC2.emailClickCount.getD 0 + aggC2.totalClicks)) :=
  ⟨by decide, by decide, by decide, by decide,
    reconciliation_adds_counts_monotonic recC2 dataC2 leadC2 aggC2
      (by decide) (by decide) (by decide) (by decide)⟩

/-- **C4** fails as stated: the message-level flow overwrites the remote
last-clicked date unconditionally; at `recC4`/`dataC4` the written date
(epoch ms 1000000) is strictly older than the stored one (epoch ms
2000000), so an older batch click does overwrite a newer remote
last-clicked date. -/
theorem lastClicked_overwrite_counterexample :
    (buildEmailMsgUpdate recC4 dataC4).lastClickedDate = some 1000000 ∧
    recC4.lastClickedDate = some 2000000 ∧ (1000000 : Int) < 2000000 :=
  ⟨by decide, by decide, by decide⟩

/-- **C4** amended: in the message-level flow, for every fetched remote
record with clicks in the batch aggregate, the last-clicked date is written
unconditionally as the batch's latest click timestamp — no comparison with
the remote record's existing last-clicked date is made. -/
theorem lastClicked_set_unconditionally (rec : EmailMsgRecord) (data : MsgData)
    (h : 0 < data.clicks.length) :
    ∃ M : Int, (buildEmailMsgUpdate rec data).lastClickedDate = some M ∧
      M ∈ data.clicks.map Prod.fst ∧ ∀ t ∈ data.clicks.map Prod.fst, t ≤ M := by
  rw [buildEmailMsgUpdate_lastClickedDate, if_pos h]
  cases hcl : data.clicks with
  | nil => rw [hcl] at h; simp at h
  | cons c cs =>
    simp only [hcl, List.map_cons, maxTimestamp]
    refine ⟨(cs.map Prod.fst).foldl max c.1, rfl, ?_, ?_⟩
    · rcases foldl_max_mem (cs.map Prod.fst) c.1 with hm | hm
      · rw [hm]; exact List.mem_cons_self _ _
      · exact List.mem_cons_of_mem _ hm
    · intro x hx
      rcases List.mem_cons.mp hx with rfl | hx
      · exact (foldl_max_le (cs.map Prod.fst) c.1).1
      · exact (foldl_max_le (cs.map Prod.fst) c.1).2 x hx

/-- Witness for the amended C4: at `recC4`/`dataC4` the written last-clicked
date is the batch maximum. -/
theorem lastClicked_set_unconditionally_witness :
    0 < dataC4.clicks.length ∧
    (∃ M : Int, (buildEmailMsgUpdate recC4 dataC4).lastClickedDate = some M ∧
      M ∈ dataC4.clicks.map Prod.fst ∧ ∀ t ∈ dataC4.clicks.map Prod.fst, t ≤ M) :=
  ⟨by decide, lastClicked_set_unconditionally recC4 dataC4 (by decide)⟩

/-- **C5** fails as stated at its own concrete input: the code splits the
stored value on the two-character separator `'; '`; the pre-existing value
`"/a;/c"` contains no such separator, so it is kept as one opaque URL entry.
The written list is `"/a;/c; /a; /b"`, which under the code's own `'; '`
serialization represents {"/a;/c", "/a", "/b"} — `"/c"` is not an element,
so the result does not represent the set {"/a", "/b", "/c"}. -/
theorem links_clicked_semicolon_counterexample :
    (buildEmailMsgUpdate recC5 dataC5).linksClicked = some "/a;/c; /a; /b" ∧
    "/a;/c" ∈ splitSemiSpace "/a;/c; /a; /b" ∧
    "/c" ∉ splitSemiSpace "/a;/c; /a; /b" :=
  ⟨by decide, by decide, by decide⟩

/-- **C5** amended: the stored clicked-URL list after message-level
reconciliation is the first-occurrence deduplicated union of the URLs parsed
from the previously stored value by the code's `'; '` separator and the
batch's truthy clicked URLs, serialized with `'; '` and truncated to at most
255 characters; with pre-existing stored value `"/a; /c"` (the code's own
serialization of {"/a", "/c"}) and batch clicks on `/a` then `/b`, the
result `"/a; /c; /b"` represents exactly the set {"/a", "/c", "/b"}. -/
theorem links_clicked_union_amended (rec : EmailMsgRecord) (data : MsgData)
    (h : 0 < data.clicks.length) :
    ((buildEmailMsgUpdate rec data).linksClicked = some (mergedLinks rec data) ∧
      (mergedLinks rec data).length ≤ 255) ∧
    (buildEmailMsgUpdate recC5b dataC5).linksClicked = some "/a; /c; /b" ∧
    splitSemiSpace "/a; /c; /b" = ["/a", "/c", "/b"] := by
  refine ⟨⟨?_, mergedLinks_length rec data⟩, by decide, by decide⟩
  rw [buildEmailMsgUpdate_linksClicked, if_pos h]

/-- Witness for the amended C5: at `recC5b`/`dataC5` the general conjuncts
hold at a concrete input. -/
theorem links_clicked_union_amended_witness :
    0 < dataC5.clicks.length ∧
    (((buildEmailMsgUpdate recC5b dataC5).linksClicked =
        some (mergedLinks recC5b dataC5) ∧
      (mergedLinks recC5b dataC5).length ≤ 255) ∧
    (buildEmailMsgUpdate recC5b dataC5).linksClicked = some "/a; /c; /b" ∧
    splitSemiSpace "/a; /c; /b" = ["/a", "/c", "/b"]) :=
  ⟨by decide, links_clicked_union_amended recC5b dataC5 (by decide)⟩

/-- **C8.**  In the message-level flow, for every fetched remote record with
opens in the batch aggregate: if the remote first-opened date is unset, the
update sets it to the earliest open timestamp of the aggregate; if it is
already set, the update omits the field and the remote record keeps its
stored first-opened date unchanged. -/
theorem first_opened_only_if_unset (rec1 rec2 : EmailMsgRecord)
    (data : MsgData) (d : Int) (h : 0 < data.opens.length)
    (h1 : rec1.firstOpenedDate = none) (h2 : rec2.firstOpenedDate = some d) :
    (∃ m : Int, (buildEmailMsgUpdate rec1 data).firstOpenedDate = some m ∧
      m ∈ data.opens ∧ ∀ t ∈ data.opens, m ≤ t) ∧
    (buildEmailMsgUpdate rec2 data).firstOpenedDate = none ∧
    appliedField rec2.firstOpenedDate
      (buildEmailMsgUpdate rec2 data).firstOpenedDate = some d := by
  have hset : (buildEmailMsgUpdate rec2 data).firstOpenedDate = none := by
    rw [buildEmailMsgUpdate_firstOpenedDate, if_neg]
    simp [h2]
  refine ⟨?_, hset, by rw [hset]; simpa [appliedField] using h2⟩
  rw [buildEmailMsgUpdate_firstOpenedDate, if_pos ⟨h, h1⟩]
  cases hop : data.opens with
  | nil => rw [hop] at h; simp at h
  | cons t ts =>
    simp only [hop, minTimestamp]
    refine ⟨ts.foldl min t, rfl, ?_, ?_⟩
    · rcases foldl_min_mem ts t with hm | hm
      · rw [hm]; exact List.mem_cons_self _ _
      · exact List.mem_cons_of_mem _ hm
    · intro x hx
      rcases List.mem_cons.mp hx with hEq | hx
      · rw [hEq]; exact (foldl_min_le ts t).1
      · exact (foldl_min_le ts t).2 x hx

/-- Witness for C8: with out-of-order opens the unset record gets the
earliest timestamp and the already-set record keeps its date 500. -/
theorem first_opened_only_if_unset_witness :
    0 < dataC8.opens.length ∧ recC8.firstOpenedDate = none ∧
    recC8b.firstOpenedDate = some 500 ∧
    ((∃ m : Int, (buildEmailMsgUpdate recC8 dataC8).firstOpenedDate = some m ∧
      m ∈ dataC8.opens ∧ ∀ t ∈ dataC8.opens, m ≤ t) ∧
    (buildEmailMsgUpdate recC8b dataC8).firstOpenedDate = none ∧
    appliedField recC8b.firstOpenedDate
      (buildEmailMsgUpdate recC8b dataC8).firstOpenedDate = some 500) :=
  ⟨by decide, by decide, by decide,
    first_opened_only_if_unset recC8 recC8b dataC8 500
      (by decide) (by decide) (by decide)⟩

/-- **C6.**  For every pair of events of the same kind (open, click, or
bounce/dropped) for the same email with equal occurrence timestamps, the
aggregator's "most recent" fields — last-open, last-click and last-bounce
timestamp, and the bounce reason, per email and per message — keep the
earlier-seen event's value: the comparison is strictly-greater, so folding a
second event whose timestamp equals the stored one changes none of them. -/
theorem equal_timestamp_keeps_earlier (d : EmailData) (m : MsgData)
    (eo ec eb : CEvent) (r : Option String)
    (ho : eo.eventType = "open")
    (hdo : d.lastOpenDate = some (eo.timestamp * 1000))
    (hc : ec.eventType = "click")
    (hdc : d.lastClickDate = some (ec.timestamp * 1000))
    (hb : eb.eventType = "bounce" ∨ eb.eventType = "dropped")
    (hdb : d.lastBounceDate = some (eb.timestamp * 1000))
    (hmb : m.bounce = some (eb.timestamp * 1000, r)) :
    (updateEmailData d eo).lastOpenDate = d.lastOpenDate ∧
    (updateEmailData d ec).lastClickDate = d.lastClickDate ∧
    (updateEmailData d eb).lastBounceDate = d.lastBounceDate ∧
    (updateEmailData d eb).bounceReason = d.bounceReason ∧
    (updateMsgData m eb).bounce = m.bounce := by
  refine ⟨?_, ?_, ?_, ?_, ?_⟩
  · simp [updateEmailData, ho, hdo]
  · simp [updateEmailData, hc, hdc]
  · rcases hb with hb | hb <;> simp [updateEmailData, hb, hdb]
  · rcases hb with hb | hb <;> simp [updateEmailData, hb, hdb]
  · rcases hb with hb | hb <;> simp [updateMsgData, hb, hmb]

/-- Witness for C6: at equal timestamps a second open/click/bounce leaves
every "most recent" field — including the bounce reason "r1", not replaced
by "r2" — unchanged. -/
theorem equal_timestamp_keeps_earlier_witness :
    eoC6.eventType = "open" ∧
    dC6.lastOpenDate = some (eoC6.timestamp * 1000) ∧
    ecC6.eventType = "click" ∧
    dC6.lastClickDate = some (ecC6.timestamp * 1000) ∧
    (ebC6.eventType = "bounce" ∨ ebC6.eventType = "dropped") ∧
    dC6.lastBounceDate = some (ebC6.timestamp * 1000) ∧
    mC6.bounce = some (ebC6.timestamp * 1000, some "r1") ∧
    ((updateEmailData dC6 eoC6).lastOpenDate = dC6.lastOpenDate ∧
    (updateEmailData dC6 ecC6).lastClickDate = dC6.lastClickDate ∧
    (updateEmailData dC6 ebC6).lastBounceDate = dC6.lastBounceDate ∧
    (updateEmailData dC6 ebC6).bounceReason = dC6.bounceReason ∧
    (updateMsgData mC6 ebC6).bounce = mC6.bounce) :=
  ⟨by decide, by decide, by decide, by decide, by decide, by decide, by decide,
    equal_timestamp_keeps_earlier dC6 mC6 eoC6 ecC6 ebC6 (some "r1")
      (by decide) (by decide) (by decide) (by decide) (by decide) (by decide)
      (by decide)⟩

/-- **C7** fails as stated: the per-email aggregate built by the code
(server.js lines 114–144) records no last-clicked URL at all — the two
batches of the claim's scenario, differing only in the clicked URL (`/p`
versus `/q`), produce identical aggregation output, so the aggregator
cannot produce a per-email aggregate with `lastClickUrl = "/p"`. -/
theorem per_email_aggregate_no_url_counterexample :
    aggregateBatch
        [⟨"a@x.com", "open", 1000, none, none, none, none⟩,
         ⟨"a@x.com", "click", 1100, some "/p", none, none, none⟩] =
      aggregateBatch
        [⟨"a@x.com", "open", 1000, none, none, none, none⟩,
         ⟨"a@x.com", "click", 1100, some "/q", none, none, none⟩] ∧
    ("/p" : String) ≠ "/q" :=
  ⟨by decide, by decide⟩

/-- **C7** amended: for the concrete batch of the two events without a
messageId — open at 1000 then click on `/p` at 1100 for `a@x.com` — the
aggregator produces no per-message aggregate and exactly one per-email
aggregate, with totalOpens = 1, totalClicks = 1 and lastClickDate = epoch
ms 1100000; the per-email aggregate stores no clicked URL. -/
theorem per_email_scenario_amended :
    aggregateBatch
        [⟨"a@x.com", "open", 1000, none, none, none, none⟩,
         ⟨"a@x.com", "click", 1100, some "/p", none, none, none⟩] =
      ⟨[], [("a@x.com", ⟨"a@x.com", 1, 1, some 1000000, some 1100000, none, none⟩)]⟩ := by
  decide

/-- `upsert` always leaves its own key present. -/
theorem lookupAssoc_upsert_self {α : Type} (k : String) (init : α) (f : α → α)
    (l : List (String × α)) : (lookupAssoc k (upsert k init f l)).isSome := by
  induction l with
  | nil => simp [upsert, lookupAssoc]
  | cons p rest ih =>
    obtain ⟨k', v⟩ := p
    by_cases hk : k' = k <;> simp [upsert, lookupAssoc, hk, ih]

/-- `upsert` preserves the presence of every key. -/
theorem lookupAssoc_upsert_isSome {α : Type} (k e : String) (init : α)
    (f : α → α) (l : List (String × α)) (h : (lookupAssoc e l).isSome) :
    (lookupAssoc e (upsert k init f l)).isSome := by
  induction l with
  | nil => simp [lookupAssoc] at h
  | cons p rest ih =>
    obtain ⟨k', v⟩ := p
    by_cases hk : k' = k <;> by_cases he : k' = e <;>
      simp_all [upsert, lookupAssoc, hk, he]

/-- The per-email view after one aggregation step is an upsert at the
event's email; the per-message part of the step never touches it. -/
theorem aggStep_eventsByEmail (r : AggResult) (ev : CEvent) :
    (aggStep r ev).eventsByEmail =
      upsert ev.email (initEmailData ev.email)
        (fun d => updateEmailData d ev) r.eventsByEmail := by
  unfold aggStep
  cases hm : ev.sg_message_id with
  | none => rfl
  | some mid => by_cases hmid : mid ≠ "" <;> simp [hmid]

/-- After folding a batch, every email of the batch (and every previously
present key) has a per-email entry. -/
theorem foldl_aggStep_email (batch : List CEvent) :
    ∀ r : AggResult, ∀ e : String,
      (e ∈ batch.map CEvent.email ∨ (lookupAssoc e r.eventsByEmail).isSome) →
      (lookupAssoc e ((batch.foldl aggStep r).eventsByEmail)).isSome := by
  induction batch with
  | nil =>
    intro r e h
    rcases h with h | h
    · simp at h
    · simpa using h
  | cons ev rest ih =>
    intro r e h
    simp only [List.foldl_cons]
    apply ih
    rcases h with h | h
    · simp only [List.map_cons, List.mem_cons] at h
      rcases h with rfl | h
      · right
        rw [aggStep_eventsByEmail]
        exact lookupAssoc_upsert_self _ _ _ _
      · exact Or.inl h
    · right
      rw [aggStep_eventsByEmail]
      exact lookupAssoc_upsert_isSome _ _ _ _ _ h

/-- **C9.**  Every matched unconverted Lead whose email appears in the batch
gets a record appended to the bulk Lead update even when the email's
aggregate contributes nothing (zero opens, zero clicks — e.g. all its
events have an unrecognized type); that record contains only the Id and
sets no fields.  (Every email occurring in the batch does get a per-email
aggregate entry, so such a Lead is never skipped.) -/
theorem lead_update_pushed_even_when_empty
    (leads : List LeadRecord) (ebe : List (String × EmailData))
    (lead : LeadRecord) (agg : EmailData) (batch : List CEvent) (e : String)
    (h1 : lead ∈ leads) (h2 : lookupAssoc lead.email ebe = some agg)
    (h3 : agg.totalOpens = 0) (h4 : agg.totalClicks = 0)
    (h5 : e ∈ batch.map CEvent.email) :
    buildLeadUpdate lead agg = ⟨lead.id, none, none, none, none⟩ ∧
    (⟨lead.id, none, none, none, none⟩ : LeadUpdate) ∈ processLeads leads ebe ∧
    (lookupAssoc e (aggregateBatch batch).eventsByEmail).isSome := by
  have hbuild : buildLeadUpdate lead agg = ⟨lead.id, none, none, none, none⟩ := by
    simp [buildLeadUpdate, h3, h4]
  refine ⟨hbuild, ?_, ?_⟩
  · rw [processLeads, List.mem_filterMap]
    exact ⟨lead, h1, by rw [h2, Option.map]; exact congrArg some hbuild⟩
  · exact foldl_aggStep_email batch ⟨[], []⟩ e (Or.inl h5)

/-- Witness for C9: a batch holding only a "delivered" event for
`b@x.com` yields a zero aggregate for that email, and the matched Lead's
update record carries only the Id. -/
theorem lead_update_pushed_even_when_empty_witness :
    leadC9 ∈ [leadC9] ∧
    lookupAssoc leadC9.email (aggregateBatch [evDelivered]).eventsByEmail =
      some (initEmailData "b@x.com") ∧
    (initEmailData "b@x.com").totalOpens = 0 ∧
    (initEmailData "b@x.com").totalClicks = 0 ∧
    "b@x.com" ∈ [evDelivered].map CEvent.email ∧
    (buildLeadUpdate leadC9 (initEmailData "b@x.com") =
        ⟨leadC9.id, none, none, none, none⟩ ∧
      (⟨leadC9.id, none, none, none, none⟩ : LeadUpdate) ∈
        processLeads [leadC9] (aggregateBatch [evDelivered]).eventsByEmail ∧
      (lookupAssoc "b@x.com" (aggregateBatch [evDelivered]).eventsByEmail).isSome) :=
  ⟨by decide, by decide, by decide, by decide, by decide,
    lead_update_pushed_even_when_empty [leadC9]
      (aggregateBatch [evDelivered]).eventsByEmail leadC9
      (initEmailData "b@x.com") [evDelivered] "b@x.com"
      (by decide) (by decide) (by decide) (by decide) (by decide)⟩
